import Mathlib

/-!
Verification development for the graph-construction and serialization layer
of src/yarrow/base.py (whitenoise-core python bindings).

The Python source is shallowly embedded:
* runtime values handled by the typed-value codec become the inductive
  type `PyVal` (scalars, nested lists, string-keyed dicts, and None);
* the generated protobuf messages (value_pb2) are not part of the source
  tree, so the wire-level `ProtoValue` family is modelled from the spec;
* mutating methods (`Analysis.add_component`, `Component.__init__`,
  `Analysis.__enter__`/`__exit__`) become explicit state-passing functions
  over `AnalysisState` and `World`; a Python `raise` before any mutation is
  modelled by returning the unchanged state together with an error message;
* Python string operations act on code points, so `str.startswith` and
  slicing are modelled on `String.data` (`pyStartsWith`, `pySliceFrom`).
-/

/-- Opaque carrier for 64-bit floating point payloads.  The code under
verification only moves floats around (codec, privacy usage); it never
computes with them, so the bit pattern is carried as a `Nat`. -/
structure F64 where
  bits : Nat
deriving DecidableEq, Repr

/-- A scalar element of one of the four element kinds the codec
distinguishes (bool, 64-bit int, 64-bit float, string); see the dtype
table at src/yarrow/base.py lines 316-330.  Note that boolean arrays are
nevertheless rejected by that table (see `mkArray1d`). -/
inductive Scalar where
  | b (x : Bool)
  | i (x : Int)
  | f (x : F64)
  | s (x : String)
deriving DecidableEq, Repr

/-- A Python runtime value as consumed by `Analysis._serialize_value_proto`:
a scalar, a (possibly nested) list, a string-keyed dict, or None. -/
inductive PyVal where
  | scalar (s : Scalar)
  | list (xs : List PyVal)
  | dict (entries : List (String × PyVal))
  | none
deriving Repr

/-- `issubclass(type(value), dict)` (src/yarrow/base.py line 301). -/
def isDict : PyVal → Bool
  | .dict _ => true
  | _ => false

/-- The numpy dtypes distinguished by the serializer.  `bool` stands for
`np.bool_`, the scalar type a boolean array's `dtype.type` yields.  Every
dtype outside the listed kinds (in particular `object`, which numpy infers
for None entries, dicts, ragged nestings and other unsupported elements)
is collapsed into `object_` here; the serializer rejects it either way. -/
inductive NpDtype where
  | bool | int64 | float64 | str_ | object_
deriving DecidableEq, Repr

/-- Dtype of a single scalar under `np.array` inference. -/
def scalarDtype : Scalar → NpDtype
  | .b _ => .bool
  | .i _ => .int64
  | .f _ => .float64
  | .s _ => .str_

/-- Combine the conversions of the elements of a list of length `n` into
the conversion of the list itself: if all element arrays agree in shape
and (supported) dtype the result is a rectangular array one dimension
higher, with the flat buffers concatenated in row-major order; otherwise
numpy produces an `object` array (whose flat buffer the serializer never
reads, since the dtype lookup fails first). -/
def combineResults (n : Nat) (rs : List (List Nat × NpDtype × List Scalar)) :
    List Nat × NpDtype × List Scalar :=
  match rs with
  | [] => ([0], .float64, [])
  | (s, d, f) :: rest =>
      if rest.all (fun r => r.1 == s && r.2.1 == d) && !(d == .object_) then
        (n :: s, d, f ++ (rest.map (fun r => r.2.2)).flatten)
      else
        ([n], .object_, [])

mutual
/-- Modelled from the spec: `np.array(value)` (src/yarrow/base.py line 314)
as described in section 4.4 — infer the element kind from the value's
elements, compute the shape from the value's dimensions, and flatten in
row-major order.  Returns (shape, dtype, flattened buffer).  Mixed-kind or
ragged inputs are treated as the unsupported `object` dtype. -/
def npArray : PyVal → List Nat × NpDtype × List Scalar
  | .scalar s => ([], scalarDtype s, [s])
  | .none => ([], .object_, [])
  | .dict _ => ([], .object_, [])
  | .list xs => combineResults xs.length (npArrayAll xs)

/-- Conversion of every element of a list, in order. -/
def npArrayAll : List PyVal → List (List Nat × NpDtype × List Scalar)
  | [] => []
  | x :: xs => npArray x :: npArrayAll xs
end

/-- Modelled from the spec: the generated `value_pb2.Array1d` oneof, with
one typed repeated field per supported element kind (the source selects
the field by the string keys "bool", "i64", "f64", "string" at
src/yarrow/base.py lines 316-338). -/
inductive Array1dData where
  | bool (data : List Bool)
  | i64 (data : List Int)
  | f64 (data : List F64)
  | str (data : List String)
deriving DecidableEq, Repr

/-- Modelled from the spec: an `Array1d` message whose oneof may be unset. -/
abbrev Array1dMsg := Option Array1dData

/-- Modelled from the spec: `value_pb2.ArrayNd` with shape, flattening
order and flattened buffer (the buffer submessage may be unset on the
wire, hence the `Option`). -/
structure ProtoArrayNd where
  shape : List Nat
  order : List Nat
  flattened : Array1dMsg
deriving DecidableEq, Repr

/-- Modelled from the spec: `Array2dJagged.Array1dOption`, a column that is
optionally absent (section 3: each column of a jagged array is optionally
absent).  The parser reads this through `HasField("option")`. -/
structure ProtoArray1dOption where
  option : Option Array1dData
deriving DecidableEq, Repr

/-- Modelled from the spec: the `value_pb2.Value` wire message, a oneof of
the three variants (array, recursive string-keyed map, jagged array) that
may also be entirely unset. -/
inductive ProtoValue where
  | array_nd (a : ProtoArrayNd)
  | hashmap_string (data : List (String × ProtoValue))
  | array_2d_jagged (data : List ProtoArray1dOption)
  | unset
deriving Repr

/-- Read a flat buffer as 64-bit integers. -/
def asInts : List Scalar → Except String (List Int)
  | [] => .ok []
  | .i x :: rest => do pure (x :: (← asInts rest))
  | _ :: _ => .error "TypeError: buffer does not match dtype"

/-- Read a flat buffer as 64-bit floats. -/
def asFloats : List Scalar → Except String (List F64)
  | [] => .ok []
  | .f x :: rest => do pure (x :: (← asFloats rest))
  | _ :: _ => .error "TypeError: buffer does not match dtype"

/-- Read a flat buffer as strings. -/
def asStrs : List Scalar → Except String (List String)
  | [] => .ok []
  | .s x :: rest => do pure (x :: (← asStrs rest))
  | _ :: _ => .error "TypeError: buffer does not match dtype"

/-- The two dtype-keyed dictionary lookups of
src/yarrow/base.py lines 316-330 followed by the container construction of
line 337: a dtype that is not a key of the dictionaries raises a KeyError.
The keys are the classes `np.bool`, `np.int64`, `np.float64`,
`np.string_`, `np.str_`.  In every numpy release this code can run on
(1.x up to 1.23), `np.bool` is an alias for the *builtin* `bool`, while a
boolean array's `dtype.type` is the distinct class `np.bool_`; class keys
compare by identity, so boolean arrays miss the dictionary and raise a
KeyError exactly like `object` arrays do.  The `bool` branch of the
dictionary (mapping to the "bool" field and `Array1dBool` container) is
therefore unreachable from serialization. -/
def mkArray1d : NpDtype → List Scalar → Except String Array1dData
  | .bool, _ => Except.error "KeyError: unsupported dtype"
  | .int64, l => do pure (Array1dData.i64 (← asInts l))
  | .float64, l => do pure (Array1dData.f64 (← asFloats l))
  | .str_, l => do pure (Array1dData.str (← asStrs l))
  | .object_, _ => Except.error "KeyError: unsupported dtype"

/-- Modelled from the spec: encoding one jagged column
(src/yarrow/base.py lines 307-309 builds `Array1dOption(data=column)` from
the raw column; per section 4.4 each column is encoded independently as a
present optional 1-d array). -/
def serializeColumn (col : PyVal) : Except String ProtoArray1dOption := do
  let r := npArray col
  let a1 ← mkArray1d r.2.1 r.2.2
  pure ⟨some a1⟩

mutual
/-- `Analysis._serialize_value_proto` (src/yarrow/base.py lines 298-339).
The branch order follows the source: the hashmap branch fires when the
format tag is "hashmap" or the value is a dict; then the jagged branch;
then an unrecognized format tag is rejected; otherwise the value is
converted by numpy, the dtype is looked up (KeyError on an unsupported
kind) and the array is emitted with its shape, the identity flattening
order `range(ndim)` and the row-major flattened buffer. -/
def serializeValueProto (value : PyVal) (value_format : Option String) :
    Except String ProtoValue :=
  if value_format == some "hashmap" || isDict value then
    match value with
    | .dict entries => do
        pure (ProtoValue.hashmap_string (← serializeEntries entries))
    | _ => Except.error "TypeError: value is not a dict"
  else if value_format == some "jagged" then
    match value with
    | .list cols => do
        pure (ProtoValue.array_2d_jagged (← cols.mapM serializeColumn))
    | _ => Except.error "TypeError: value is not iterable"
  else if !(value_format == Option.none) && !(value_format == some "array") then
    Except.error "format must be either array, jagged, hashmap or None"
  else
    let r := npArray value
    match mkArray1d r.2.1 r.2.2 with
    | .error e => .error e
    | .ok a1 => .ok (ProtoValue.array_nd ⟨r.1, List.range r.1.length, some a1⟩)

/-- The dict comprehension of src/yarrow/base.py line 303: every entry is
serialized recursively with no format tag. -/
def serializeEntries : List (String × PyVal) → Except String (List (String × ProtoValue))
  | [] => .ok []
  | (k, v) :: rest => do
      pure ((k, ← serializeValueProto v Option.none) :: (← serializeEntries rest))
end

/-- `parse_array1d` (src/yarrow/base.py lines 344-347): read the oneof
member selected by `WhichOneof("data")`, or None when unset.  The typed
repeated field is returned as the corresponding scalar buffer. -/
def parse_array1d (a : Array1dMsg) : Option (List Scalar) :=
  match a with
  | Option.none => Option.none
  | some (.bool l) => some (l.map Scalar.b)
  | some (.i64 l) => some (l.map Scalar.i)
  | some (.f64 l) => some (l.map Scalar.f)
  | some (.str l) => some (l.map Scalar.s)

/-- `parse_array1d_option` (src/yarrow/base.py lines 349-351).  The source
computes `parse_array1d(array.option)` when the option field is present
but contains no return statement, so the function always returns None; the
computed column is discarded. -/
def parse_array1d_option (_ : ProtoArray1dOption) : PyVal :=
  PyVal.none

/-- Product of the dimension sizes of a shape. -/
def shapeProd : List Nat → Nat
  | [] => 1
  | n :: rest => n * shapeProd rest

/-- Rebuild the nested-list value of a given shape from a row-major flat
buffer (`np.array(data).reshape(shape)`, src/yarrow/base.py line 357). -/
def unflatten : List Nat → List Scalar → PyVal
  | [], flat =>
      match flat with
      | [s] => PyVal.scalar s
      | _ => PyVal.none
  | n :: rest, flat =>
      PyVal.list ((List.range n).map fun i2 =>
        unflatten rest ((flat.drop (i2 * shapeProd rest)).take (shapeProd rest)))

/-- `np.array(data).reshape(shape)`: fails unless the buffer length equals
the product of the dimension sizes. -/
def npReshape (data : List Scalar) (shape : List Nat) : Except String PyVal :=
  if data.length == shapeProd shape then .ok (unflatten shape data)
  else .error "ValueError: cannot reshape"

mutual
/-- `Analysis._parse_value_proto` (src/yarrow/base.py lines 341-366).  The
three `HasField` checks are tried in order; falling through every branch
(no variant set, or an array variant whose buffer is unset or empty)
returns Python None.  A nonempty buffer with a nonempty shape is reshaped;
with an empty shape the bare first element is returned. -/
def parseValueProto : ProtoValue → Except String PyVal
  | .array_nd a =>
      match parse_array1d a.flattened with
      | some (d :: ds) =>
          if !a.shape.isEmpty then npReshape (d :: ds) a.shape
          else .ok (PyVal.scalar d)
      | _ => .ok PyVal.none
  | .hashmap_string data => do
      pure (PyVal.dict (← parseEntriesProto data))
  | .array_2d_jagged data =>
      .ok (PyVal.list (data.map parse_array1d_option))
  | .unset => .ok PyVal.none

/-- The dict comprehension of src/yarrow/base.py line 361. -/
def parseEntriesProto : List (String × ProtoValue) → Except String (List (String × PyVal))
  | [] => .ok []
  | (k, v) :: rest => do
      pure ((k, ← parseValueProto v) :: (← parseEntriesProto rest))
end

/-- An epsilon or delta argument of `privacy_usage`: a single number or an
ordered sequence of numbers (the caller may also pass None, modelled as
`Option NumArg` at the call site). -/
inductive NumArg where
  | single (x : F64)
  | seq (xs : List F64)
deriving DecidableEq, Repr

/-- Modelled from the spec: `value_pb2.PrivacyUsage`, a tagged union of a
pure (epsilon only) and an approximate (epsilon, delta) distance record. -/
inductive PrivacyUsageMsg where
  | distance_approximate (epsilon delta : F64)
  | distance_pure (epsilon : F64)
deriving DecidableEq, Repr

/-- `privacy_usage` (src/yarrow/base.py lines 16-45): single numbers are
upgraded to one-element lists; with both arguments present the lists are
zipped into approximate records; with only epsilon present each value
becomes a pure record; otherwise the function falls off the end and
returns Python None. -/
def privacyUsage (epsilon delta : Option NumArg) : Option (List PrivacyUsageMsg) :=
  let eps : Option (List F64) := epsilon.map fun a => match a with
    | .single x => [x]
    | .seq xs => xs
  let del : Option (List F64) := delta.map fun a => match a with
    | .single x => [x]
    | .seq xs => xs
  match eps, del with
  | some es, some ds =>
      some (List.zipWith (fun e d => PrivacyUsageMsg.distance_approximate e d) es ds)
  | some es, Option.none =>
      some (es.map fun e => PrivacyUsageMsg.distance_pure e)
  | Option.none, _ => Option.none

/-- A component as a tree: its operation name, its argument mapping (an
argument bound to Python None stays in the mapping as an absent node, as
`Component.of(None)` returns None), and the optional literal value of a
Constant node.  This structural view serves the constraint-expansion
rewrite; graph registration is modelled separately below. -/
inductive CTree where
  | mk (name : String) (args : List (String × Option CTree)) (value : Option PyVal)
deriving Repr

/-- A value appearing in a constraint mapping: either an existing
component or a raw Python value to be coerced. -/
inductive CoV where
  | comp (c : CTree)
  | raw (v : PyVal)
deriving Repr

/-- `Component.of` (src/yarrow/base.py lines 148-156): None passes through
as None, an existing Component passes through unchanged, and any other
value is wrapped as a Constant node carrying it as a literal. -/
def componentOf : CoV → Option CTree
  | .raw PyVal.none => Option.none
  | .comp c => some c
  | .raw v => some (CTree.mk "Constant" [] (some v))

/-- `ALL_CONSTRAINTS` (src/yarrow/base.py line 13). -/
def ALL_CONSTRAINTS : List String := ["n", "min", "max", "categories"]

/-- Python `key.startswith(argument)` by code points. -/
def pyStartsWith (s p : String) : Bool :=
  p.data.isPrefixOf s.data

/-- Python `key[k:]` by code points. -/
def pySliceFrom (s : String) (k : Nat) : String :=
  String.mk (s.data.drop k)

/-- Python dict lookup `constraints[key]`: a missing key raises KeyError. -/
def dictGet (constraints : List (String × CoV)) (key : String) : Except String CoV :=
  match constraints.lookup key with
  | some c => .ok c
  | Option.none => .error ("KeyError: " ++ key)

/-- The per-argument body of the loop of `Component._expand_constraints`
(src/yarrow/base.py lines 164-206): compute the recognized suffixes for
this argument, wrap a min+max pair as Clamp then Impute, otherwise a lone
max as RowMax and a lone min as RowMin, then (always checked) categories
as a categories-keyed Clamp and n as Resize, each step wrapping the result
of the previous one.  The constraint values are read back with the
underscore-joined keys of lines 171-205. -/
def expandOne (constraints : List (String × CoV)) (argument : String)
    (v0 : Option CTree) : Except String (Option CTree) := do
  let filtered := ((constraints.map Prod.fst).filter
      (fun i2 => pyStartsWith i2 argument)).map
      (fun i2 => pySliceFrom i2 (argument.length + 1))
  let filtered := filtered.filter (fun i2 => ALL_CONSTRAINTS.contains i2)
  let v1 ←
    if filtered.contains "max" && filtered.contains "min" then do
      let min_component := componentOf (← dictGet constraints (argument ++ "_min"))
      let max_component := componentOf (← dictGet constraints (argument ++ "_max"))
      let clamped := CTree.mk "Clamp"
        [("data", v0), ("min", min_component), ("max", max_component)] Option.none
      pure (some (CTree.mk "Impute" [("data", some clamped)] Option.none))
    else do
      let va ←
        if filtered.contains "max" then do
          let mx := componentOf (← dictGet constraints (argument ++ "_max"))
          pure (some (CTree.mk "RowMax" [("left", v0), ("right", mx)] Option.none))
        else pure v0
      if filtered.contains "min" then do
        let mn := componentOf (← dictGet constraints (argument ++ "_min"))
        pure (some (CTree.mk "RowMin" [("left", va), ("right", mn)] Option.none))
      else pure va
  let v2 ←
    if filtered.contains "categories" then do
      let cats := componentOf (← dictGet constraints (argument ++ "_categories"))
      pure (some (CTree.mk "Clamp" [("data", v1), ("categories", cats)] Option.none))
    else pure v1
  if filtered.contains "n" then do
    let nv := componentOf (← dictGet constraints (argument ++ "_n"))
    pure (some (CTree.mk "Resize" [("data", v2), ("n", nv)] Option.none))
  else pure v2

/-- The loop over `arguments.keys()` of src/yarrow/base.py lines 164-206,
rewriting each binding in order. -/
def expandAll (constraints : List (String × CoV)) :
    List (String × Option CTree) → Except String (List (String × Option CTree))
  | [] => .ok []
  | (k, v) :: rest => do
      pure ((k, ← expandOne constraints k v) :: (← expandAll constraints rest))

/-- `Component._expand_constraints` (src/yarrow/base.py lines 158-208):
with no constraints (None or empty) the arguments pass through unchanged;
otherwise every argument binding is rewritten in order by `expandOne` (the
loop mutates only the binding of the argument currently being processed,
so the bindings are rewritten independently); a KeyError raised while
processing a binding propagates. -/
def expandConstraints (arguments : List (String × Option CTree))
    (constraints : List (String × CoV)) :
    Except String (List (String × Option CTree)) :=
  if constraints.isEmpty then .ok arguments
  else expandAll constraints arguments

/-- The registration-relevant state of a `Component` object: its operation
name and the two bookkeeping fields set by `add_component`
(src/yarrow/base.py lines 81-82 initialize both to None; lines 239-240 set
them exactly once).  The owning analysis is identified by the object id of
the `Analysis`. -/
structure GComponent where
  name : String
  analysis : Option Nat
  component_id : Option Nat
deriving DecidableEq, Repr

/-- A released value stored by `add_component`
(src/yarrow/base.py lines 242-246). -/
structure RelVal where
  value : PyVal
  value_format : Option String
deriving Repr

/-- The state of an `Analysis` object (src/yarrow/base.py lines 212-232):
the id-to-node mapping, the released-value mapping, the node-id counter,
the privacy definition, and the `_context` slot written by `__enter__`.
The finite Python dicts are modelled as optional-valued maps on node ids. -/
structure AnalysisState where
  components : Nat → Option GComponent
  release_values : Nat → Option RelVal
  component_count : Nat
  distance : String
  neighboring : String
  saved_context : Option Nat

/-- A fresh `Analysis` before any component is registered
(`Analysis.__init__`, src/yarrow/base.py lines 212-232): empty mappings
and a counter of 0. -/
def analysisNew : AnalysisState :=
  { components := fun _ => Option.none
    release_values := fun _ => Option.none
    component_count := 0
    distance := "APPROXIMATE"
    neighboring := "SUBSTITUTE"
    saved_context := Option.none }

/-- Point update of a partial map. -/
def setAt {α : Type} (f : Nat → Option α) (k : Nat) (x : α) : Nat → Option α :=
  fun n => if n == k then some x else f n

/-- `Analysis.add_component` (src/yarrow/base.py lines 234-248), acting on
the analysis with object id `aid`.  A component that already belongs to an
analysis is rejected before any state is touched (the raise at line 236 is
the first statement), so the error case returns the input state and the
input component unchanged.  On success the component receives the current
counter value as its id, the optional literal value is stored in the
released-value mapping under that id, the component is stored in the
id-to-node mapping under that id, and the counter advances by one. -/
def addComponent (aid : Nat) (a : AnalysisState) (c : GComponent)
    (value : Option RelVal) : AnalysisState × GComponent × Option String :=
  match c.analysis with
  | some _ => (a, c, some "this component is already a part of another analysis")
  | Option.none =>
      let c2 : GComponent :=
        { c with analysis := some aid, component_id := some a.component_count }
      let rv := match value with
        | some v => setAt a.release_values a.component_count v
        | Option.none => a.release_values
      ({ a with
          components := setAt a.components a.component_count c2
          release_values := rv
          component_count := a.component_count + 1 },
        c2, Option.none)

/-- A component as freshly field-initialized by `Component.__init__`
(src/yarrow/base.py lines 76-82): no owner, no id. -/
def mkFresh (nm : String) : GComponent :=
  { name := nm, analysis := Option.none, component_id := Option.none }

/-- The registration loop of `Analysis.__init__`
(src/yarrow/base.py lines 228-229): register each component in order; a
raised error aborts the loop. -/
def regAll (aid : Nat) (a : AnalysisState) :
    List GComponent → AnalysisState × Option String
  | [] => (a, Option.none)
  | c :: cs =>
      match addComponent aid a c Option.none with
      | (a2, _, Option.none) => regAll aid a2 cs
      | (a2, _, some e) => (a2, some e)

/-- `Analysis(*components)`: a fresh analysis that registers the given
components in order. -/
def analysisInit (aid : Nat) (cs : List GComponent) :
    AnalysisState × Option String :=
  regAll aid analysisNew cs

/-- The process-wide state relevant to graph construction: one
`AnalysisState` per analysis object id (every Python `Analysis` object
exists, so the map is total) and the module-global `context` slot
(src/yarrow/base.py line 428). -/
structure World where
  analyses : Nat → AnalysisState
  context : Option Nat

/-- Replace the state of one analysis object. -/
def updAnalyses (f : Nat → AnalysisState) (k : Nat) (a : AnalysisState) :
    Nat → AnalysisState :=
  fun n => if n == k then a else f n

/-- `Component.__init__` (src/yarrow/base.py lines 70-88) as observed by
the graphs: with no active context the constructor raises before touching
any graph (the discarded object never registers), so the world is returned
unchanged with an error; with an active context the freshly initialized
component (owner None, id None) is registered into it. -/
def componentInitW (w : World) (nm : String) (value : Option RelVal) :
    World × Option GComponent × Option String :=
  match w.context with
  | Option.none =>
      (w, Option.none,
        some "all Yarrow components must be created within the context of an analysis")
  | some aid =>
      let r := addComponent aid (w.analyses aid) (mkFresh nm) value
      ({ w with analyses := updAnalyses w.analyses aid r.1 }, some r.2.1, r.2.2)

/-- `Dataset.__init__` (src/yarrow/base.py lines 49-64): the context check
comes first (line 52), then exactly one of path and value must be set
(line 55), then a supplied literal is serialized (line 62) and a
Materialize component is constructed.  The options dict is operation
triple-specific pass-through and is not tracked. -/
def datasetInit (w : World) (path : Option String) (value : Option PyVal)
    (value_format : Option String) : World × Option GComponent × Option String :=
  match w.context with
  | Option.none =>
      (w, Option.none,
        some "all Yarrow components must be created within the context of an analysis")
  | some _ =>
      if (if path.isSome then 1 else 0) + (if value.isSome then 1 else 0) != 1 then
        (w, Option.none, some "either path or value must be set")
      else
        match value with
        | some v =>
            match serializeValueProto v value_format with
            | .error e => (w, Option.none, some e)
            | .ok _ => componentInitW w "Materialize" Option.none
        | Option.none => componentInitW w "Materialize" Option.none

/-- `Analysis.__enter__` (src/yarrow/base.py lines 391-395): save the
previously active context in this analysis and install this analysis as
the active context. -/
def enterScope (w : World) (aid : Nat) : World :=
  let a := w.analyses aid
  { analyses := updAnalyses w.analyses aid { a with saved_context := w.context }
    context := some aid }

/-- `Analysis.__exit__` (src/yarrow/base.py lines 397-399): restore the
context saved by `__enter__`.  Python runs this on every exit path of the
`with` block, including error unwind. -/
def exitScope (w : World) (aid : Nat) : World :=
  { w with context := (w.analyses aid).saved_context }

/-- A straight-line builder program: node constructions interleaved with
properly nested (LIFO) `with analysis:` scopes. -/
inductive Prog where
  | skip
  | seq (p q : Prog)
  | newNode (nm : String) (value : Option RelVal)
  | newData (path : Option String) (value : Option PyVal) (fmt : Option String)
  | scope (aid : Nat) (body : Prog)

/-- The analysis ids of all scopes occurring in a program. -/
def scopeIds : Prog → List Nat
  | .skip => []
  | .seq p q => scopeIds p ++ scopeIds q
  | .newNode _ _ => []
  | .newData _ _ _ => []
  | .scope aid body => aid :: scopeIds body

/-- Distinct nesting: no scope re-enters an analysis while a scope of the
same analysis is still open. -/
def nestOK : Prog → Bool
  | .skip => true
  | .seq p q => nestOK p && nestOK q
  | .newNode _ _ => true
  | .newData _ _ _ => true
  | .scope aid body => !(scopeIds body).contains aid && nestOK body

/-- Run a builder program.  A raised error propagates outward, but a
`with` scope always runs `__exit__` before re-raising, matching Python. -/
def runProg : Prog → World → World × Option String
  | .skip, w => (w, Option.none)
  | .seq p q, w =>
      match runProg p w with
      | (w2, Option.none) => runProg q w2
      | (w2, some e) => (w2, some e)
  | .newNode nm v, w =>
      let r := componentInitW w nm v
      (r.1, r.2.2)
  | .newData p v fmt, w =>
      let r := datasetInit w p v fmt
      (r.1, r.2.2)
  | .scope aid body, w =>
      let r := runProg body (enterScope w aid)
      (exitScope r.1 aid, r.2)

/-- A concrete two-scope builder program used to witness the context
restoration theorem. -/
def demoProg : Prog :=
  Prog.scope 1 (Prog.seq (Prog.newNode "Mean" Option.none)
    (Prog.scope 2 (Prog.newNode "Constant" (some ⟨PyVal.scalar (Scalar.i 5), Option.none⟩))))

/-- A concrete starting world with no active context. -/
def demoWorld : World :=
  { analyses := fun _ => analysisNew, context := Option.none }

/-- The jagged value used to exhibit the decode bug: one present column
holding the single integer 1. -/
def jaggedExample : PyVal := PyVal.list [PyVal.list [PyVal.scalar (Scalar.i 1)]]

theorem isPrefixOfAppend (l t : List Char) : l.isPrefixOf (l ++ t) = true := by
  simp

theorem pyStartsWithAppend (nm suf : String) : pyStartsWith (nm ++ suf) nm = true := by
  simp [pyStartsWith, isPrefixOfAppend]

theorem pySliceFromAppend (nm suf : String) :
    pySliceFrom (nm ++ suf) (nm.length + 1) = String.mk (suf.data.drop 1) := by
  show String.mk (((nm ++ suf).data).drop (nm.length + 1)) = String.mk (suf.data.drop 1)
  rw [String.data_append]
  have hl : nm.length = nm.data.length := rfl
  rw [hl, List.drop_append]

theorem stringAppendRightNe (nm s t : String) (h : s.data ≠ t.data) :
    ((nm ++ s) == (nm ++ t)) = false := by
  simp only [beq_eq_false_iff_ne]
  intro he
  have hd := congrArg String.data he
  simp only [String.data_append, List.append_cancel_left_eq] at hd
  exact absurd hd h

/-- C2: for every argument carrying both an x_min and an x_max constraint
(and no other), constraint expansion wraps it in exactly two nodes in the
fixed order Clamp then Impute: Clamp takes data=x and min/max equal to the
coerced Constant nodes holding the constraint values, Impute takes only
data=the Clamp node, and the rewritten mapping binds the argument's name
to the Impute node. -/
theorem minmax_expands_to_clamp_then_impute (name : String) (x : Option CTree) (a b : Scalar) :
    expandConstraints [(name, x)]
      [(name ++ "_min", CoV.raw (PyVal.scalar a)), (name ++ "_max", CoV.raw (PyVal.scalar b))] =
    Except.ok [(name, some (CTree.mk "Impute" [("data", some (CTree.mk "Clamp"
      [("data", x),
       ("min", some (CTree.mk "Constant" [] (some (PyVal.scalar a)))),
       ("max", some (CTree.mk "Constant" [] (some (PyVal.scalar b))))] Option.none))] Option.none))] := by
  have h1 : pyStartsWith (name ++ "_min") name = true := pyStartsWithAppend name "_min"
  have h2 : pyStartsWith (name ++ "_max") name = true := pyStartsWithAppend name "_max"
  have h3 : pySliceFrom (name ++ "_min") (name.length + 1) = "min" := by
    rw [pySliceFromAppend]; decide
  have h4 : pySliceFrom (name ++ "_max") (name.length + 1) = "max" := by
    rw [pySliceFromAppend]; decide
  have h6 : ((name ++ "_max") == (name ++ "_min")) = false :=
    stringAppendRightNe name "_max" "_min" (by decide)
  simp only [expandConstraints, List.isEmpty, expandAll, expandOne, dictGet,
    List.lookup, List.map_cons, List.map_nil, List.filter_cons, List.filter_nil,
    h1, h2, h3, h4, h6, beq_self_eq_true, if_true]
  rfl

/-- C10 (counterexample): the claim says a key such as xYmin applies a min
constraint to argument x just as x_min does; at the concrete input
arguments = [x -> Data], constraints = [xYmin -> 0] the code instead
raises KeyError: x_min and does not produce the claimed RowMin binding. -/
theorem separator_blind_key_raises_keyerror :
    expandConstraints [("x", some (CTree.mk "Data" [] Option.none))]
      [("xYmin", CoV.raw (PyVal.scalar (Scalar.i 0)))] = Except.error "KeyError: x_min" ∧
    expandConstraints [("x", some (CTree.mk "Data" [] Option.none))]
      [("xYmin", CoV.raw (PyVal.scalar (Scalar.i 0)))] ≠
      Except.ok [("x", some (CTree.mk "RowMin"
        [("left", some (CTree.mk "Data" [] Option.none)),
         ("right", some (CTree.mk "Constant" [] (some (PyVal.scalar (Scalar.i 0)))))]
        Option.none))] :=
  ⟨rfl, fun h => Except.noConfusion h⟩

/-- C10 (amended): constraint-key detection never inspects the separator
(startswith plus the suffix at position len(a)+1), but the constraint
value is then fetched under the underscore-joined key, so xYmin alone
raises a KeyError rather than applying the constraint; with x_min also
present the expansion succeeds using the value stored under x_min; a
plain x_min works normally; and a key matching no argument name is
silently ignored. -/
theorem constraint_key_matching_amended :
    (∀ (x : Option CTree) (a : Scalar),
      expandConstraints [("x", x)] [("xYmin", CoV.raw (PyVal.scalar a))] =
        Except.error "KeyError: x_min") ∧
    (∀ (x : Option CTree) (a b : Scalar),
      expandConstraints [("x", x)]
        [("xYmin", CoV.raw (PyVal.scalar a)), ("x_min", CoV.raw (PyVal.scalar b))] =
        Except.ok [("x", some (CTree.mk "RowMin" [("left", x),
          ("right", some (CTree.mk "Constant" [] (some (PyVal.scalar b))))] Option.none))]) ∧
    (∀ (x : Option CTree) (a : Scalar),
      expandConstraints [("x", x)] [("x_min", CoV.raw (PyVal.scalar a))] =
        Except.ok [("x", some (CTree.mk "RowMin" [("left", x),
          ("right", some (CTree.mk "Constant" [] (some (PyVal.scalar a))))] Option.none))]) ∧
    (∀ (x : Option CTree) (a : Scalar),
      expandConstraints [("x", x)] [("y_min", CoV.raw (PyVal.scalar a))] =
        Except.ok [("x", x)]) :=
  ⟨fun _ _ => rfl, fun _ _ _ => rfl, fun _ _ => rfl, fun _ _ => rfl⟩

/-- C4: registering a node that already belongs to some analysis into any
analysis fails with the already-owned error, and the failing registration
leaves the target analysis completely unchanged (counter, id-to-node and
released-value mappings) while the node keeps its original owner and id. -/
theorem owned_component_registration_rejected (aid : Nat) (a : AnalysisState)
    (nm : String) (g : Nat) (ci : Option Nat) (v : Option RelVal) :
    addComponent aid a ⟨nm, some g, ci⟩ v =
      (a, ⟨nm, some g, ci⟩, some "this component is already a part of another analysis") :=
  rfl

/-- C8: constructing a node (Component or Dataset) when no graph context
is active fails with the no-active-context error, and the failed
construction creates no partial graph state anywhere: the world (every
analysis's counter, id-to-node mapping and released-value mapping) is
returned unchanged. -/
theorem no_active_context_rejected (A : Nat → AnalysisState) (nm : String)
    (v : Option RelVal) (path : Option String) (val : Option PyVal) (fmt : Option String) :
    componentInitW ⟨A, Option.none⟩ nm v =
      (⟨A, Option.none⟩, Option.none,
        some "all Yarrow components must be created within the context of an analysis") ∧
    datasetInit ⟨A, Option.none⟩ path val fmt =
      (⟨A, Option.none⟩, Option.none,
        some "all Yarrow components must be created within the context of an analysis") :=
  ⟨rfl, rfl⟩

/-- C9: calling privacy_usage with delta supplied but epsilon absent
returns the explicit no-usage absence for every delta, silently
discarding the delta and raising no error. -/
theorem delta_without_epsilon_yields_no_usage (d : NumArg) :
    privacyUsage Option.none (some d) = Option.none :=
  rfl

/-- C5: privacy_usage pairs epsilon and delta element-wise and stops at
the shorter sequence (epsilon=[e1,e2], delta=[d1] yields exactly one
approximate record pairing (e1,d1), dropping e2; the zip length is the
minimum of the lengths); epsilon alone yields one pure record per value;
neither yields the explicit absence; and single numbers behave exactly
like their one-element-sequence upgrades in either position. -/
theorem privacy_usage_pairing :
    (∀ (e1 e2 d1 : F64),
      privacyUsage (some (NumArg.seq [e1, e2])) (some (NumArg.seq [d1])) =
        some [PrivacyUsageMsg.distance_approximate e1 d1]) ∧
    (∀ (es ds : List F64),
      privacyUsage (some (NumArg.seq es)) (some (NumArg.seq ds)) =
        some (List.zipWith PrivacyUsageMsg.distance_approximate es ds)) ∧
    (∀ (es ds : List F64),
      (List.zipWith PrivacyUsageMsg.distance_approximate es ds).length =
        min es.length ds.length) ∧
    (∀ (es : List F64),
      privacyUsage (some (NumArg.seq es)) Option.none =
        some (es.map PrivacyUsageMsg.distance_pure)) ∧
    (privacyUsage Option.none Option.none = Option.none) ∧
    (∀ (e : F64) (d : Option NumArg),
      privacyUsage (some (NumArg.single e)) d = privacyUsage (some (NumArg.seq [e])) d) ∧
    (∀ (e : Option NumArg) (d : F64),
      privacyUsage e (some (NumArg.single d)) = privacyUsage e (some (NumArg.seq [d]))) := by
  refine ⟨fun _ _ _ => rfl, fun _ _ => rfl, ?_, fun _ => rfl, rfl, fun _ _ => rfl, fun _ _ => rfl⟩
  intro es ds
  simp

/-- C1 (code_bug exhibit): decoding the encoding of the jagged value
[[1]] yields [None], not [[1]] — parse_array1d_option computes the
decoded column but lacks a return statement, so every jagged column
decodes to None and the decode-encode round trip fails for the jagged
format. -/
theorem jagged_roundtrip_discards_columns :
    serializeValueProto jaggedExample (some "jagged") =
      Except.ok (ProtoValue.array_2d_jagged [⟨some (Array1dData.i64 [1])⟩]) ∧
    (serializeValueProto jaggedExample (some "jagged")).bind parseValueProto =
      Except.ok (PyVal.list [PyVal.none]) ∧
    PyVal.list [PyVal.none] ≠ jaggedExample := by
  refine ⟨rfl, rfl, ?_⟩
  simp [jaggedExample]

theorem regAllFresh (aid : Nat) (names : List String) :
    ∀ (a : AnalysisState),
    (∀ k, a.component_count ≤ k → a.components k = Option.none) →
    (regAll aid a (names.map mkFresh)).2 = Option.none ∧
    (regAll aid a (names.map mkFresh)).1.component_count
      = a.component_count + names.length ∧
    ∀ k, (regAll aid a (names.map mkFresh)).1.components k =
      if k < a.component_count then a.components k
      else (names[k - a.component_count]?).map
        (fun nm => ⟨nm, some aid, some k⟩) := by
  induction names with
  | nil =>
      intro a ha
      refine ⟨rfl, rfl, fun k => ?_⟩
      by_cases hk : k < a.component_count
      · simp [regAll, hk]
      · simp [regAll, hk, ha k (Nat.le_of_not_lt hk)]
  | cons nm names ih =>
      intro a ha
      have hstep : regAll aid a ((nm :: names).map mkFresh) =
          regAll aid { a with
            components := setAt a.components a.component_count
              ⟨nm, some aid, some a.component_count⟩,
            component_count := a.component_count + 1 } (names.map mkFresh) := rfl
      have ha2 : ∀ k, a.component_count + 1 ≤ k →
          (setAt a.components a.component_count
            ⟨nm, some aid, some a.component_count⟩) k = Option.none := by
        intro k hk
        have hne : (k == a.component_count) = false := by
          simp only [beq_eq_false_iff_ne]
          omega
        simp [setAt, hne, ha k (by omega)]
      obtain ⟨ih1, ih2, ih3⟩ := ih { a with
          components := setAt a.components a.component_count
            ⟨nm, some aid, some a.component_count⟩,
          component_count := a.component_count + 1 } ha2
      rw [hstep]
      refine ⟨ih1, ?_, ?_⟩
      · rw [ih2]
        show a.component_count + 1 + names.length = a.component_count + (nm :: names).length
        simp only [List.length_cons]
        omega
      · intro k
        have h3 := ih3 k
        by_cases hk : k < a.component_count
        · rw [if_pos (show k < a.component_count + 1 by omega)] at h3
          rw [h3, if_pos hk]
          have hne : (k == a.component_count) = false := by
            simp only [beq_eq_false_iff_ne]
            omega
          simp [setAt, hne]
        · by_cases hk2 : k = a.component_count
          · subst hk2
            rw [if_pos (show a.component_count < a.component_count + 1 by omega)] at h3
            rw [h3, if_neg hk]
            simp [setAt]
          · rw [if_neg (show ¬ k < a.component_count + 1 by omega)] at h3
            rw [h3, if_neg hk]
            have harith : k - a.component_count = (k - (a.component_count + 1)) + 1 := by
              omega
            rw [harith]
            simp

/-- C3: node ids form the strictly increasing sequence 0, 1, 2, ... with
no gaps and no reuse: a fresh analysis starts its counter at 0; every
successful add_component assigns the current counter value as the node's
id, stores the node under that id and increments the counter by exactly
one; and registering n fresh nodes into one analysis assigns exactly the
ids 0..n-1 in order. -/
theorem node_ids_are_sequential :
    analysisNew.component_count = 0 ∧
    (∀ (aid : Nat) (a : AnalysisState) (nm : String) (v : Option RelVal),
      addComponent aid a (mkFresh nm) v =
        ({ a with
            components := setAt a.components a.component_count
              ⟨nm, some aid, some a.component_count⟩,
            release_values := match v with
              | some rv => setAt a.release_values a.component_count rv
              | Option.none => a.release_values,
            component_count := a.component_count + 1 },
          ⟨nm, some aid, some a.component_count⟩, Option.none)) ∧
    (∀ (aid : Nat) (names : List String),
      (analysisInit aid (names.map mkFresh)).2 = Option.none ∧
      (analysisInit aid (names.map mkFresh)).1.component_count = names.length ∧
      ∀ k, (analysisInit aid (names.map mkFresh)).1.components k =
        (names[k]?).map (fun nm => ⟨nm, some aid, some k⟩)) := by
  refine ⟨rfl, fun aid a nm v => rfl, fun aid names => ?_⟩
  obtain ⟨h1, h2, h3⟩ := regAllFresh aid names analysisNew (fun _ _ => rfl)
  have h2a : (analysisInit aid (names.map mkFresh)).1.component_count
      = 0 + names.length := h2
  refine ⟨h1, by simpa using h2a, fun k => ?_⟩
  have hk : (analysisInit aid (names.map mkFresh)).1.components k =
      if k < 0 then analysisNew.components k
      else (names[k - 0]?).map (fun nm => ⟨nm, some aid, some k⟩) := h3 k
  simpa using hk

theorem addComponentSaved (aid : Nat) (a : AnalysisState) (c : GComponent)
    (v : Option RelVal) :
    ((addComponent aid a c v).1).saved_context = a.saved_context := by
  cases hc : c.analysis <;> simp [addComponent, hc]

theorem componentInitContext (w : World) (nm : String) (v : Option RelVal) :
    ((componentInitW w nm v).1).context = w.context := by
  cases hc : w.context <;> simp [componentInitW, hc]

theorem componentInitSaved (w : World) (nm : String) (v : Option RelVal) (i : Nat) :
    (((componentInitW w nm v).1).analyses i).saved_context
      = (w.analyses i).saved_context := by
  cases hc : w.context with
  | none => simp [componentInitW, hc]
  | some aid =>
      simp only [componentInitW, hc, updAnalyses]
      cases hbeq : (i == aid) with
      | false => simp [hbeq]
      | true =>
          have hieq : i = aid := by simpa using hbeq
          subst hieq
          simp [hbeq, addComponentSaved]

theorem datasetWorld (w : World) (p : Option String) (v : Option PyVal)
    (f : Option String) :
    ((datasetInit w p v f).1) = w ∨
    ((datasetInit w p v f).1) = ((componentInitW w "Materialize" Option.none).1) := by
  obtain ⟨A, ctx⟩ := w
  cases ctx with
  | none => exact Or.inl rfl
  | some aid =>
      cases p with
      | some path0 =>
          cases v with
          | none => exact Or.inr rfl
          | some v2 => exact Or.inl rfl
      | none =>
          cases v with
          | none => exact Or.inl rfl
          | some v2 =>
              have hred : datasetInit ⟨A, some aid⟩ Option.none (some v2) f =
                  (match serializeValueProto v2 f with
                   | Except.error e => (⟨A, some aid⟩, Option.none, some e)
                   | Except.ok _ => componentInitW ⟨A, some aid⟩ "Materialize" Option.none) := rfl
              rw [hred]
              cases hs : serializeValueProto v2 f with
              | error e => exact Or.inl rfl
              | ok pv => exact Or.inr rfl

theorem datasetInitContext (w : World) (p : Option String) (v : Option PyVal)
    (f : Option String) :
    ((datasetInit w p v f).1).context = w.context := by
  rcases datasetWorld w p v f with h | h
  · rw [h]
  · rw [h]
    exact componentInitContext w "Materialize" Option.none

theorem datasetInitSaved (w : World) (p : Option String) (v : Option PyVal)
    (f : Option String) (i : Nat) :
    (((datasetInit w p v f).1).analyses i).saved_context
      = (w.analyses i).saved_context := by
  rcases datasetWorld w p v f with h | h
  · rw [h]
  · rw [h]
    exact componentInitSaved w "Materialize" Option.none i

theorem runProgSaved (p : Prog) : ∀ (w : World) (i : Nat), i ∉ scopeIds p →
    (((runProg p w).1).analyses i).saved_context = (w.analyses i).saved_context := by
  induction p with
  | skip => intro w i h; rfl
  | seq p q ihp ihq =>
      intro w i h
      simp only [scopeIds, List.mem_append, not_or] at h
      obtain ⟨h1, h2⟩ := h
      cases hr : runProg p w with
      | mk w2 e =>
          cases e with
          | none =>
              have hq : runProg (Prog.seq p q) w = runProg q w2 := by
                simp [runProg, hr]
              rw [hq]
              have hp := ihp w i h1
              rw [hr] at hp
              rw [ihq w2 i h2]
              exact hp
          | some e2 =>
              have hq : runProg (Prog.seq p q) w = (w2, some e2) := by
                simp [runProg, hr]
              rw [hq]
              have hp := ihp w i h1
              rw [hr] at hp
              exact hp
  | newNode nm v => intro w i h; exact componentInitSaved w nm v i
  | newData p0 v0 f0 => intro w i h; exact datasetInitSaved w p0 v0 f0 i
  | scope aid body ih =>
      intro w i h
      simp only [scopeIds, List.mem_cons, not_or] at h
      obtain ⟨hne, hbody⟩ := h
      show (((runProg body (enterScope w aid)).1).analyses i).saved_context
        = (w.analyses i).saved_context
      rw [ih (enterScope w aid) i hbody]
      have hbeq : (i == aid) = false := by
        simp only [beq_eq_false_iff_ne]
        exact hne
      simp [enterScope, updAnalyses, hbeq]

theorem runProgContext (p : Prog) : ∀ (w : World), nestOK p = true →
    ((runProg p w).1).context = w.context := by
  induction p with
  | skip => intro w h; rfl
  | seq p q ihp ihq =>
      intro w h
      simp only [nestOK, Bool.and_eq_true] at h
      cases hr : runProg p w with
      | mk w2 e =>
          cases e with
          | none =>
              have hq : runProg (Prog.seq p q) w = runProg q w2 := by
                simp [runProg, hr]
              rw [hq, ihq w2 h.2]
              have hp := ihp w h.1
              rw [hr] at hp
              exact hp
          | some e2 =>
              have hq : runProg (Prog.seq p q) w = (w2, some e2) := by
                simp [runProg, hr]
              rw [hq]
              have hp := ihp w h.1
              rw [hr] at hp
              exact hp
  | newNode nm v => intro w h; exact componentInitContext w nm v
  | newData p0 v0 f0 => intro w h; exact datasetInitContext w p0 v0 f0
  | scope aid body ih =>
      intro w h
      simp only [nestOK, Bool.and_eq_true, Bool.not_eq_true'] at h
      obtain ⟨hcon, hbody⟩ := h
      have hmem : aid ∉ scopeIds body := by
        simpa [List.contains] using hcon
      show (((runProg body (enterScope w aid)).1).analyses aid).saved_context
        = w.context
      rw [runProgSaved body (enterScope w aid) aid hmem]
      simp [enterScope, updAnalyses]

/-- C6: entering a graph's scope saves the previously active context in
that graph's own predecessor link and installs the graph as active;
exiting restores the saved predecessor (on every exit path, including
error unwind, by construction of runProg); consequently any LIFO nesting
of distinct scopes, with arbitrarily many node and dataset constructions
inside, ends with the active context exactly as it was before the first
entry. -/
theorem scope_enter_exit_restores_context (p : Prog) (w : World)
    (h : nestOK p = true) :
    (∀ (w2 : World) (aid : Nat),
      (enterScope w2 aid).context = some aid ∧
      ((enterScope w2 aid).analyses aid).saved_context = w2.context ∧
      (exitScope w2 aid).context = (w2.analyses aid).saved_context) ∧
    ((runProg p w).1).context = w.context :=
  ⟨fun w2 aid => ⟨rfl, by simp [enterScope, updAnalyses], rfl⟩,
    runProgContext p w h⟩

/-- C6 (witness): the restoration theorem applied to a concrete two-scope
program containing node constructions, starting from a world with no
active context and ending with no active context. -/
theorem scope_enter_exit_restores_context_witness :
    nestOK demoProg = true ∧
    ((runProg demoProg demoWorld).1).context = Option.none := by
  refine ⟨rfl, ?_⟩
  exact (scope_enter_exit_restores_context demoProg demoWorld rfl).2

theorem npArrayAllMap {α : Type} (f : α → Scalar) (xs : List α) :
    npArrayAll (xs.map fun y => PyVal.scalar (f y)) =
      xs.map (fun y => ([], scalarDtype (f y), [f y])) := by
  induction xs with
  | nil => rfl
  | cons y ys ih => simp [npArrayAll, npArray, ih]

theorem flattenSingletons {α β : Type} (g : α → β) (l : List α) :
    (l.map fun x => [g x]).flatten = l.map g := by
  induction l with
  | nil => rfl
  | cons x xs ih => simp [ih]

theorem npArrayScalarList {α : Type} (f : α → Scalar) (d : NpDtype)
    (hf : ∀ y, scalarDtype (f y) = d) (hd : (d == NpDtype.object_) = false)
    (x : α) (xs : List α) :
    npArray (PyVal.list ((x :: xs).map fun y => PyVal.scalar (f y))) =
      ([xs.length + 1], d, (x :: xs).map f) := by
  have h0 : npArray (PyVal.list ((x :: xs).map fun y => PyVal.scalar (f y))) =
      combineResults (xs.length + 1)
        (([], scalarDtype (f x), [f x]) ::
          xs.map (fun y => ([], scalarDtype (f y), [f y]))) := by
    show combineResults ((x :: xs).map fun y => PyVal.scalar (f y)).length
        (npArrayAll ((x :: xs).map fun y => PyVal.scalar (f y))) = _
    rw [npArrayAllMap f (x :: xs)]
    simp
  have hc : ∀ (l : List α),
      ((l.map fun y => (([] : List Nat), scalarDtype (f y), [f y])).all
        (fun r => r.1 == ([] : List Nat) && r.2.1 == d)) = true := by
    intro l
    induction l with
    | nil => rfl
    | cons y ys ih => simp [hf, ih]
  have hflat : ∀ (l : List α),
      ((l.map fun y => (([] : List Nat), scalarDtype (f y), [f y])).map
        (fun r => r.2.2)).flatten = l.map f := by
    intro l
    induction l with
    | nil => rfl
    | cons y ys ih =>
        simp only [List.map_cons, List.flatten_cons, ih]
        simp
  rw [h0, hf x]
  simp only [combineResults, hc xs, hd, Bool.not_false, Bool.and_self, if_true]
  rw [hflat xs]
  simp

theorem asIntsMap (l : List Int) : asInts (l.map Scalar.i) = Except.ok l := by
  induction l with
  | nil => rfl
  | cons x xs ih => simp [asInts, ih]

theorem asFloatsMap (l : List F64) : asFloats (l.map Scalar.f) = Except.ok l := by
  induction l with
  | nil => rfl
  | cons x xs ih => simp [asFloats, ih]

theorem asStrsMap (l : List String) : asStrs (l.map Scalar.s) = Except.ok l := by
  induction l with
  | nil => rfl
  | cons x xs ih => simp [asStrs, ih]

theorem serializeArrayBranch (xs : List PyVal) :
    serializeValueProto (PyVal.list xs) Option.none =
      match mkArray1d (npArray (PyVal.list xs)).2.1 (npArray (PyVal.list xs)).2.2 with
      | .error e => .error e
      | .ok a1 => .ok (ProtoValue.array_nd
          ⟨(npArray (PyVal.list xs)).1,
           List.range (npArray (PyVal.list xs)).1.length, some a1⟩) := rfl

theorem serializeBoolListErr (x : Bool) (xs : List Bool) :
    serializeValueProto (PyVal.list ((x :: xs).map fun y => PyVal.scalar (Scalar.b y)))
        Option.none =
      Except.error "KeyError: unsupported dtype" := by
  have hnp := npArrayScalarList Scalar.b NpDtype.bool (fun _ => rfl) rfl x xs
  rw [serializeArrayBranch, hnp]
  rfl

theorem serializeIntList (x : Int) (xs : List Int) :
    serializeValueProto (PyVal.list ((x :: xs).map fun y => PyVal.scalar (Scalar.i y)))
        Option.none =
      Except.ok (ProtoValue.array_nd
        ⟨[xs.length + 1], [0], some (Array1dData.i64 (x :: xs))⟩) := by
  have hnp := npArrayScalarList Scalar.i NpDtype.int64 (fun _ => rfl) rfl x xs
  rw [serializeArrayBranch, hnp]
  have hb := asIntsMap (x :: xs)
  rw [List.map_cons] at hb
  have hmk : mkArray1d NpDtype.int64 (Scalar.i x :: xs.map Scalar.i) =
      Except.ok (Array1dData.i64 (x :: xs)) := by
    simp [mkArray1d, hb, Except.map]
  dsimp only
  rw [List.map_cons, hmk]
  rfl

theorem serializeFloatList (x : F64) (xs : List F64) :
    serializeValueProto (PyVal.list ((x :: xs).map fun y => PyVal.scalar (Scalar.f y)))
        Option.none =
      Except.ok (ProtoValue.array_nd
        ⟨[xs.length + 1], [0], some (Array1dData.f64 (x :: xs))⟩) := by
  have hnp := npArrayScalarList Scalar.f NpDtype.float64 (fun _ => rfl) rfl x xs
  rw [serializeArrayBranch, hnp]
  have hb := asFloatsMap (x :: xs)
  rw [List.map_cons] at hb
  have hmk : mkArray1d NpDtype.float64 (Scalar.f x :: xs.map Scalar.f) =
      Except.ok (Array1dData.f64 (x :: xs)) := by
    simp [mkArray1d, hb, Except.map]
  dsimp only
  rw [List.map_cons, hmk]
  rfl

theorem serializeStrList (x : String) (xs : List String) :
    serializeValueProto (PyVal.list ((x :: xs).map fun y => PyVal.scalar (Scalar.s y)))
        Option.none =
      Except.ok (ProtoValue.array_nd
        ⟨[xs.length + 1], [0], some (Array1dData.str (x :: xs))⟩) := by
  have hnp := npArrayScalarList Scalar.s NpDtype.str_ (fun _ => rfl) rfl x xs
  rw [serializeArrayBranch, hnp]
  have hb := asStrsMap (x :: xs)
  rw [List.map_cons] at hb
  have hmk : mkArray1d NpDtype.str_ (Scalar.s x :: xs.map Scalar.s) =
      Except.ok (Array1dData.str (x :: xs)) := by
    simp [mkArray1d, hb, Except.map]
  dsimp only
  rw [List.map_cons, hmk]
  rfl

theorem serializeArrayFmtEquiv (v : PyVal) :
    serializeValueProto v (some "array") = serializeValueProto v Option.none := by
  cases v <;> rfl

/-- C7 (code_bug exhibit): the claim says the array codec supports exactly
the four kinds boolean, int64, float64 and string, failing only outside
them.  The code does not support boolean: the dtype dictionary at
src/yarrow/base.py lines 316-330 is keyed by `np.bool` — the builtin
`bool` in every numpy this code can run on — while a boolean array's
`dtype.type` is the distinct class `np.bool_`, so encoding a boolean
array (or a bare boolean scalar) raises the unsupported-dtype KeyError.
The remaining kinds behave as claimed: int64, float64 and string arrays
encode with the inferred kind, the shape, the identity flattening order
`range(ndim)` and the row-major flattening (2x2 example), an element kind
outside the table (numpy object dtype, e.g. None entries) fails with the
KeyError, and the explicit "array" format behaves exactly like the
unspecified format. -/
theorem bool_arrays_raise_dtype_keyerror :
    (∀ (x : Bool) (xs : List Bool),
      serializeValueProto (PyVal.list ((x :: xs).map fun y => PyVal.scalar (Scalar.b y)))
          Option.none = Except.error "KeyError: unsupported dtype") ∧
    (∀ (b : Bool),
      serializeValueProto (PyVal.scalar (Scalar.b b)) Option.none =
        Except.error "KeyError: unsupported dtype") ∧
    (∀ (x : Int) (xs : List Int),
      serializeValueProto (PyVal.list ((x :: xs).map fun y => PyVal.scalar (Scalar.i y)))
          Option.none =
        Except.ok (ProtoValue.array_nd
          ⟨[xs.length + 1], [0], some (Array1dData.i64 (x :: xs))⟩)) ∧
    (∀ (x : F64) (xs : List F64),
      serializeValueProto (PyVal.list ((x :: xs).map fun y => PyVal.scalar (Scalar.f y)))
          Option.none =
        Except.ok (ProtoValue.array_nd
          ⟨[xs.length + 1], [0], some (Array1dData.f64 (x :: xs))⟩)) ∧
    (∀ (x : String) (xs : List String),
      serializeValueProto (PyVal.list ((x :: xs).map fun y => PyVal.scalar (Scalar.s y)))
          Option.none =
        Except.ok (ProtoValue.array_nd
          ⟨[xs.length + 1], [0], some (Array1dData.str (x :: xs))⟩)) ∧
    (∀ (n : Int),
      serializeValueProto (PyVal.scalar (Scalar.i n)) Option.none =
        Except.ok (ProtoValue.array_nd ⟨[], [], some (Array1dData.i64 [n])⟩)) ∧
    (serializeValueProto (PyVal.list [
        PyVal.list [PyVal.scalar (Scalar.i 1), PyVal.scalar (Scalar.i 2)],
        PyVal.list [PyVal.scalar (Scalar.i 3), PyVal.scalar (Scalar.i 4)]]) Option.none =
      Except.ok (ProtoValue.array_nd
        ⟨[2, 2], [0, 1], some (Array1dData.i64 [1, 2, 3, 4])⟩)) ∧
    (serializeValueProto PyVal.none Option.none =
      Except.error "KeyError: unsupported dtype") ∧
    (serializeValueProto (PyVal.list [PyVal.none, PyVal.none]) Option.none =
      Except.error "KeyError: unsupported dtype") ∧
    (∀ (v : PyVal),
      serializeValueProto v (some "array") = serializeValueProto v Option.none) :=
  ⟨serializeBoolListErr, fun _ => rfl, serializeIntList, serializeFloatList,
    serializeStrList, fun _ => rfl, rfl, rfl, rfl, serializeArrayFmtEquiv⟩
